import Mathlib

/-!
Shallow embedding of the freya devtools inspector core
(`src/freya/src/devtools.rs`): the snapshot builder's depth-first
traversal with self-exclusion, the mutation-signal loop, the selection
state, and the synthetic-event injector.

Machine details modelled as follows: `NodeId` and `ElementId` are `Nat`;
the opaque `NodeState` attached to each node is carried as an opaque
`Nat` token (the code only clones it); listener sets (`FxHashSet<String>`)
are carried as `List String`; `f64` coordinates are carried as `Rat`
(no arithmetic is performed on them, they are only stored and copied).
-/

namespace Devtools

/-- `dioxus_native_core::node::NodeType`: the three node kinds the
builder matches on. -/
inductive NodeType where
  | text (text : String)
  | element (tag : String) (listeners : List String)
  | placeholder
deriving DecidableEq

/-- Per-node data the traversal closure reads: `node.node_data.node_id`,
`node.node_data.element_id` (optional) and `node.node_data.node_type`,
plus the opaque `node.state` that is cloned into the record. -/
structure NodeData where
  node_id : Nat
  element_id : Option Nat
  node_type : NodeType
  state : Nat
deriving DecidableEq

/-- `TreeNode` from `devtools.rs`: one record of the node registry. -/
structure TreeNode where
  tag : String
  id : Nat
  element_id : Nat
  height : Nat
  text : Option String
  state : Nat
  listeners : Option (List String)
deriving DecidableEq

/-- The real dom tree, in child/sibling form: `node d c s` is a node with
data `d`, first child `c` and next sibling `s`; `nil` ends a sibling
chain.  A whole tree is a `node` whose sibling is `nil`. -/
inductive RDTree where
  | nil
  | node (data : NodeData) (child sibling : RDTree)
deriving DecidableEq

/-- `rdom.traverse_depth_first` paired with `rdom.tree.height`: the
pre-order visit sequence, each node with its height (depth from the
root; the root passed at height 0).  Children are one level deeper,
siblings at the same level. -/
def RDTree.preorder : RDTree → Nat → List (NodeData × Nat)
  | .nil, _ => []
  | .node d c s, h => (d, h) :: (RDTree.preorder c (h + 1) ++ RDTree.preorder s h)

/-- The mutable state of the traversal closure in `DevTools`:
`root_found`, `devtools_found` and the `new_children` vector. -/
structure BuildState where
  root_found : Bool
  devtools_found : Bool
  new_children : List TreeNode
deriving DecidableEq

/-- The flag update at the top of the traversal closure: at height 2 the
first node flips `root_found`, any later one flips `devtools_found`. -/
def updateFlags (st : BuildState) (height : Nat) : BuildState :=
  if height = 2 then
    if st.root_found = false then { st with root_found := true }
    else { st with devtools_found := true }
  else st

/-- The `(tag, text, listeners)` triple the closure computes by matching
on the node kind (devtools.rs lines 148-156). -/
def nodeParts (nt : NodeType) : String × Option String × Option (List String) :=
  match nt with
  | NodeType.text s => ("text", some s, none)
  | NodeType.element tag listeners => (tag, none, some listeners)
  | NodeType.placeholder => ("placeholder", none, none)

/-- The body of the closure passed to `rdom.traverse_depth_first`
(devtools.rs lines 137-170): update the flags, and when
`devtools_found` is still false and the node carries an `element_id`,
push a `TreeNode` built from the node kind. -/
def visitNode (st : BuildState) (nh : NodeData × Nat) : BuildState :=
  let st1 := updateFlags st nh.2
  if st1.devtools_found = false then
    match nh.1.element_id with
    | some element_id =>
        { st1 with new_children := st1.new_children ++
            [{ tag := (nodeParts nh.1.node_type).1, id := nh.1.node_id,
               element_id := element_id, height := nh.2,
               text := (nodeParts nh.1.node_type).2.1, state := nh.1.state,
               listeners := (nodeParts nh.1.node_type).2.2 }] }
    | none => st1
  else st1

/-- The registry produced by running the traversal closure over a given
visit sequence, starting from fresh flags and an empty vector. -/
def visitsRegistry (xs : List (NodeData × Nat)) : List TreeNode :=
  (xs.foldl visitNode ⟨false, false, []⟩).new_children

/-- One snapshot rebuild: traverse the locked tree depth-first and
collect the surviving records (`new_children`). -/
def buildSnapshot (t : RDTree) : List TreeNode :=
  visitsRegistry (t.preorder 0)

/-- Timed model of the mutation signal loop (devtools.rs lines 127-173)
while the channel stays open.  Input: the arrival times of the queued
unit signals (in channel order) and the time at which the loop is back
at `recv`.  Each iteration: `recv` completes as soon as the loop is
ready and the signal has arrived, then `sleep(Duration::from_millis(10))`,
then the rebuild; the loop then returns to `recv`.  Output: the times at
which rebuilds happen, one entry per rebuild. -/
def mutationLoopRebuildTimes : List Nat → Nat → List Nat
  | [], _ => []
  | a :: rest, now =>
      let recvAt := max a now
      let rebuildAt := recvAt + 10
      rebuildAt :: mutationLoopRebuildTimes rest rebuildAt

/-- What one pass of the loop body does to control flow. -/
inductive LoopControl where
  | continues
  | breaks
deriving DecidableEq

/-- One pass of the loop body, by the result of
`mutations_receiver.recv().await`: `some ()` runs the guarded block
(sleep, lock, rebuild — reported as `true`); `none` fails the
`is_some` guard and the body ends.  Neither branch of the source
contains a `break`, so both continue the loop. -/
def mutationLoopBody (recvResult : Option Unit) : LoopControl × Bool :=
  match recvResult with
  | some _ => (LoopControl.continues, true)
  | none => (LoopControl.continues, false)

/-- Run the loop for `n` iterations against a closed channel (every
`recv` returns `none`): report whether the loop has exited. -/
def runClosedLoop : Nat → LoopControl
  | 0 => LoopControl.continues
  | n + 1 =>
      match mutationLoopBody none with
      | (LoopControl.breaks, _) => LoopControl.breaks
      | (LoopControl.continues, _) => runClosedLoop n

/-- Result of `Mutex::lock`: `ok` on success, `poisoned` when a holder
panicked (Rust's `PoisonError` still carries the data). -/
inductive LockResult (α : Type) where
  | ok (value : α)
  | poisoned (value : α)
deriving DecidableEq

/-- Outcome of code that may panic. -/
inductive PanicOr (α : Type) where
  | panicked (msg : String)
  | ok (value : α)
deriving DecidableEq

/-- `Result::unwrap` applied to a lock result, as in
`rdom.lock().unwrap()`: a poisoned lock panics. -/
def lockUnwrap {α : Type} : LockResult α → PanicOr α
  | LockResult.ok v => PanicOr.ok v
  | LockResult.poisoned _ => PanicOr.panicked "PoisonError"

/-- One rebuild cycle of the signal loop, from the lock acquisition on
(devtools.rs line 131): unwrap the lock, traverse, and replace the
registry.  The previous registry is the value readers keep seeing if the
cycle does not complete. -/
def rebuildCycle (lock : LockResult RDTree) (prevRegistry : List TreeNode) :
    PanicOr (List TreeNode) :=
  match lockUnwrap lock with
  | PanicOr.panicked m => PanicOr.panicked m
  | PanicOr.ok rdom => PanicOr.ok (buildSnapshot rdom)

/-- The two pieces of component state the claims touch: the `children`
registry and the `selected_node_id` hook state. -/
structure DevToolsState where
  children : List TreeNode
  selected_node_id : Option Nat
deriving DecidableEq

/-- `children.set(new_children)`: a rebuild replaces the registry
wholesale and touches nothing else. -/
def setChildren (st : DevToolsState) (new_children : List TreeNode) : DevToolsState :=
  { st with children := new_children }

/-- `selected_node_id.set(Some(node.id))` from the `onselected`
handlers. -/
def selectNode (st : DevToolsState) (node : TreeNode) : DevToolsState :=
  { st with selected_node_id := some node.id }

/-- `children.iter().find(...)` from devtools.rs lines 179-185: resolve
the selection against the current registry, `none` when unselected or
when no record matches. -/
def selectedNode (st : DevToolsState) : Option TreeNode :=
  st.children.find? (fun c =>
    match st.selected_node_id with
    | some n_id => n_id == c.id
    | none => false)

/-- `dioxus_elements::MouseButton`; only `Left` is used here. -/
inductive MouseButton where
  | left
  | middle
  | right
deriving DecidableEq

/-- Modelled from the spec: `freya_elements::events_data::MouseData` is
not under `src/`; per the spec's Synthetic Event Record the mouse
payload carries a screen point, a local point and an optional button,
and `MouseData::new` takes them in that order. -/
structure MouseData where
  screen_point : Rat × Rat
  local_point : Rat × Rat
  button : Option MouseButton
deriving DecidableEq

/-- The payload variant; the devtools panel only builds the mouse
kind. -/
inductive DomEventData where
  | Mouse (data : MouseData)
deriving DecidableEq

/-- `freya_core::events::DomEvent`, with the field names used at the
construction site in devtools.rs lines 520-528. -/
structure DomEvent where
  name : String
  element_id : Nat
  data : DomEventData
deriving DecidableEq

/-- The initial value of the `positions` hook state in
`ClickEventListenerExtra`: `use_state(cx, || (0.0, 0.0))`. -/
def initialPositions : Rat × Rat := (0, 0)

/-- The event built by `ClickEventListenerExtra`'s trigger handler
(devtools.rs lines 519-528): name is the listener, target is the
record's `element_id`, payload is a mouse payload with screen point
`(0, 0)`, local point taken from the `positions` state, and button
`Some(MouseButton::Left)`. -/
def clickTriggerEvent (listener : String) (node : TreeNode) (positions : Rat × Rat) :
    DomEvent :=
  { name := listener
    element_id := node.element_id
    data := DomEventData.Mouse
      { screen_point := (0, 0)
        local_point := (positions.1, positions.2)
        button := some MouseButton.left } }

/-- `event_emitter.send(event).ok()`: one record is appended to the
outbound emission channel. -/
def sendEvent (channel : List DomEvent) (event : DomEvent) : List DomEvent :=
  channel ++ [event]

/-- Pressing the Trigger button: build the event and submit it. -/
def triggerInjection (channel : List DomEvent) (listener : String) (node : TreeNode)
    (positions : Rat × Rat) : List DomEvent :=
  sendEvent channel (clickTriggerEvent listener node positions)

/-- The `onchange` handler of the first coordinate input:
`positions.set((v.parse::<f64>().unwrap_or(positions.0), positions.1))`.
The numeric parser is a parameter (`str::parse::<f64>` is library code);
`unwrap_or` is `Option.getD`. -/
def coordOnChangeX (parseNum : String → Option Rat) (positions : Rat × Rat)
    (v : String) : Rat × Rat :=
  ((parseNum v).getD positions.1, positions.2)

/-- The `onchange` handler of the second coordinate input:
`positions.set((positions.0, v.parse::<f64>().unwrap_or(positions.1)))`. -/
def coordOnChangeY (parseNum : String → Option Rat) (positions : Rat × Rat)
    (v : String) : Rat × Rat :=
  (positions.1, (parseNum v).getD positions.2)

/-- The match in `EventListener` (devtools.rs lines 560-572): only
listeners named `"mousedown"` or `"click"` get the
`ClickEventListenerExtra` widget (and the `"white"` colour); every
other listener gets no extra, hence no trigger button. -/
def eventListenerRow (listener : String) : String × Bool :=
  if listener = "mousedown" ∨ listener = "click" then ("white", true)
  else ("rgb(200, 200, 200)", false)

/-- Every event the panel can emit for a given listener row: the
trigger exists only when the row carries the extra widget, and it emits
exactly the click-trigger event. -/
def panelEmittableEvents (listener : String) (node : TreeNode) (positions : Rat × Rat) :
    List DomEvent :=
  if (eventListenerRow listener).2 then [clickTriggerEvent listener node positions]
  else []

/-- Concrete node data for a small wrapper-scheme tree: the overall
root. -/
def exRootData : NodeData :=
  { node_id := 0, element_id := some 0, node_type := NodeType.element "rect" [], state := 0 }

/-- The single child of the root (the horizontal wrapper). -/
def exWrapperData : NodeData :=
  { node_id := 1, element_id := some 1, node_type := NodeType.element "rect" [], state := 0 }

/-- The application root: first node at height 2. -/
def exAppRootData : NodeData :=
  { node_id := 2, element_id := some 2, node_type := NodeType.element "rect" ["click"], state := 0 }

/-- A text leaf inside the application subtree. -/
def exAppLeafData : NodeData :=
  { node_id := 3, element_id := some 3, node_type := NodeType.text "Hello", state := 0 }

/-- The devtools panel root: second node at height 2. -/
def exDevRootData : NodeData :=
  { node_id := 4, element_id := some 4, node_type := NodeType.element "rect" [], state := 0 }

/-- A leaf inside the devtools panel subtree. -/
def exDevLeafData : NodeData :=
  { node_id := 5, element_id := some 5, node_type := NodeType.text "panel", state := 0 }

/-- A concrete tree in the two-level wrapper scheme: the application
root and the devtools root are siblings at height 2. -/
def exDevTree : RDTree :=
  RDTree.node exRootData
    (RDTree.node exWrapperData
      (RDTree.node exAppRootData
        (RDTree.node exAppLeafData RDTree.nil RDTree.nil)
        (RDTree.node exDevRootData
          (RDTree.node exDevLeafData RDTree.nil RDTree.nil)
          RDTree.nil))
      RDTree.nil)
    RDTree.nil

/-- The pre-order visits of `exDevTree` strictly before the devtools
root. -/
def exPrefixVisits : List (NodeData × Nat) :=
  [(exRootData, 0), (exWrapperData, 1), (exAppRootData, 2), (exAppLeafData, 3)]

/-- The pre-order visits of `exDevTree` strictly after the devtools
root. -/
def exSuffixVisits : List (NodeData × Nat) :=
  [(exDevLeafData, 3)]

/-- A registry record for an element with a `"click"` listener and
`ElementId` 1. -/
def exClickNode : TreeNode :=
  { tag := "rect", id := 7, element_id := 1, height := 2, text := none,
    state := 0, listeners := some ["click"] }

/-- A registry record whose id differs from every selection used in the
witnesses. -/
def exOtherNode : TreeNode :=
  { tag := "label", id := 8, element_id := 2, height := 2, text := none,
    state := 0, listeners := none }

/-- A registry record with id 9, the id the selection witnesses
select. -/
def exLaterNode : TreeNode :=
  { tag := "rect", id := 9, element_id := 3, height := 3, text := none,
    state := 0, listeners := none }

/-- A concrete stand-in numeric parser for the coordinate-input
witnesses: accepts exactly the string `"5"`. -/
def parseFive : String → Option Rat :=
  fun s => if s = "5" then some 5 else none

theorem updateFlags_new_children (st : BuildState) (h : Nat) :
    (updateFlags st h).new_children = st.new_children := by
  unfold updateFlags
  split
  · split <;> rfl
  · rfl

theorem updateFlags_devtools_mono (st : BuildState) (h : Nat)
    (hdt : st.devtools_found = true) :
    (updateFlags st h).devtools_found = true := by
  unfold updateFlags
  split
  · split
    · exact hdt
    · rfl
  · exact hdt

theorem visitNode_root_found (st : BuildState) (nh : NodeData × Nat) :
    (visitNode st nh).root_found = (updateFlags st nh.2).root_found := by
  unfold visitNode
  dsimp only
  split
  · split <;> rfl
  · rfl

theorem visitNode_devtools_found (st : BuildState) (nh : NodeData × Nat) :
    (visitNode st nh).devtools_found = (updateFlags st nh.2).devtools_found := by
  unfold visitNode
  dsimp only
  split
  · split <;> rfl
  · rfl

theorem visitNode_of_devtools_true (st : BuildState) (nh : NodeData × Nat)
    (hdt : st.devtools_found = true) :
    (visitNode st nh).new_children = st.new_children ∧
    (visitNode st nh).devtools_found = true := by
  have h1 : (updateFlags st nh.2).devtools_found = true :=
    updateFlags_devtools_mono st nh.2 hdt
  constructor
  · unfold visitNode
    dsimp only
    rw [h1]
    simp [updateFlags_new_children]
  · rw [visitNode_devtools_found]
    exact h1

theorem foldl_visit_of_devtools_true (xs : List (NodeData × Nat)) :
    ∀ st : BuildState, st.devtools_found = true →
      (xs.foldl visitNode st).new_children = st.new_children := by
  induction xs with
  | nil => intro st _; rfl
  | cons x xs ih =>
      intro st hdt
      rw [List.foldl_cons]
      obtain ⟨hch, hdt'⟩ := visitNode_of_devtools_true st x hdt
      rw [ih (visitNode st x) hdt', hch]

theorem visitNode_children_cases (st : BuildState) (nh : NodeData × Nat) :
    (visitNode st nh).new_children = st.new_children ∨
    ∃ r : TreeNode, r.id = nh.1.node_id ∧
      (visitNode st nh).new_children = st.new_children ++ [r] := by
  unfold visitNode
  dsimp only
  split
  · split
    · right
      exact ⟨_, rfl, by rw [updateFlags_new_children]⟩
    · left
      exact updateFlags_new_children st nh.2
  · left
    exact updateFlags_new_children st nh.2

theorem foldl_visit_flags (xs : List (NodeData × Nat)) :
    ∀ st : BuildState, st.devtools_found = false →
      (xs.filter (fun p => p.2 = 2)).length + (if st.root_found then 1 else 0) ≤ 1 →
      (xs.foldl visitNode st).devtools_found = false ∧
      (xs.foldl visitNode st).root_found =
        (st.root_found || xs.any (fun p => decide (p.2 = 2))) := by
  induction xs with
  | nil =>
      intro st hdt _
      constructor
      · exact hdt
      · simp
  | cons x xs ih =>
      intro st hdt hb
      rw [List.foldl_cons]
      by_cases hx : x.2 = 2
      · have hcons : ((x :: xs).filter (fun p => p.2 = 2)).length =
            (xs.filter (fun p => p.2 = 2)).length + 1 := by
          rw [List.filter_cons_of_pos (by simpa using hx)]
          simp
        have hrf : st.root_found = false := by
          by_contra hc
          rw [Bool.not_eq_false] at hc
          rw [hc, hcons] at hb
          simp at hb
        have huf : updateFlags st x.2 = { st with root_found := true } := by
          unfold updateFlags
          rw [hx, hrf]
          simp
        have hdt' : (visitNode st x).devtools_found = false := by
          rw [visitNode_devtools_found, huf]
          exact hdt
        have hrf' : (visitNode st x).root_found = true := by
          rw [visitNode_root_found, huf]
        have hfil : (xs.filter (fun p => p.2 = 2)).length = 0 := by
          rw [hrf, hcons] at hb
          simp at hb
          simp
          exact hb
        obtain ⟨h1, h2⟩ := ih (visitNode st x) hdt' (by rw [hfil, hrf']; simp)
        refine ⟨h1, ?_⟩
        rw [h2, hrf', hrf]
        simp [hx]
      · have huf : updateFlags st x.2 = st := by
          unfold updateFlags
          rw [if_neg hx]
        have hdt' : (visitNode st x).devtools_found = false := by
          rw [visitNode_devtools_found, huf]
          exact hdt
        have hrf' : (visitNode st x).root_found = st.root_found := by
          rw [visitNode_root_found, huf]
        have hfil : ((x :: xs).filter (fun p => p.2 = 2)).length =
            (xs.filter (fun p => p.2 = 2)).length := by
          rw [List.filter_cons_of_neg (by simpa using hx)]
        obtain ⟨h1, h2⟩ := ih (visitNode st x) hdt' (by rw [hrf']; omega)
        refine ⟨h1, ?_⟩
        rw [h2, hrf']
        simp [hx]

theorem foldl_visit_ids_sublist (xs : List (NodeData × Nat)) :
    ∀ st : BuildState,
      ((xs.foldl visitNode st).new_children.map (fun r => r.id)).Sublist
        ((st.new_children.map (fun r => r.id)) ++ xs.map (fun p => p.1.node_id)) := by
  induction xs with
  | nil =>
      intro st
      simp
  | cons x xs ih =>
      intro st
      rw [List.foldl_cons]
      rcases visitNode_children_cases st x with hcase | ⟨r, hrid, hcase⟩
      · have h := ih (visitNode st x)
        rw [hcase] at h
        refine h.trans ?_
        exact List.Sublist.append (List.Sublist.refl _) (List.sublist_cons_self _ _)
      · have h := ih (visitNode st x)
        rw [hcase] at h
        rw [List.map_append] at h
        rw [List.append_assoc] at h
        simpa [hrid] using h

theorem visitNode_second_root (st : BuildState) (y : NodeData × Nat)
    (hy : y.2 = 2) (hrf : st.root_found = true) :
    visitNode st y = ⟨st.root_found, true, st.new_children⟩ := by
  have huf : updateFlags st y.2 = ⟨st.root_found, true, st.new_children⟩ := by
    unfold updateFlags
    rw [hy]
    simp [hrf]
  unfold visitNode
  dsimp only
  rw [huf]
  simp

/-- C1: Self-exclusion.  If the pre-order traversal splits as a prefix
`xs` containing exactly one node at height 2 (the application root),
then the second height-2 node `y` (the inspector panel's root), then a
suffix `zs`, the rebuilt registry equals the registry produced by the
prefix alone: `y` and every node after it contribute nothing, while the
traversal still visits all `xs.length + 1 + zs.length` nodes. -/
theorem snapshot_self_exclusion (t : RDTree) (xs zs : List (NodeData × Nat))
    (y : NodeData × Nat)
    (hsplit : t.preorder 0 = xs ++ y :: zs)
    (hy : y.2 = 2)
    (hxs : (xs.filter (fun p => p.2 = 2)).length = 1) :
    buildSnapshot t = visitsRegistry xs ∧
    (t.preorder 0).length = xs.length + 1 + zs.length := by
  constructor
  · unfold buildSnapshot visitsRegistry
    rw [hsplit, List.foldl_append, List.foldl_cons]
    obtain ⟨hdt1, hrf1⟩ :=
      foldl_visit_flags xs ⟨false, false, []⟩ rfl (by rw [hxs]; simp)
    have hany : xs.any (fun p => decide (p.2 = 2)) = true := by
      rw [List.any_eq_true]
      have hne : xs.filter (fun p => p.2 = 2) ≠ [] := by
        intro h0
        rw [h0] at hxs
        simp at hxs
      obtain ⟨a, ha⟩ := List.exists_mem_of_ne_nil _ hne
      exact ⟨a, (List.mem_filter.mp ha).1, (List.mem_filter.mp ha).2⟩
    rw [hany] at hrf1
    simp only [Bool.false_or] at hrf1
    rw [visitNode_second_root (xs.foldl visitNode ⟨false, false, []⟩) y hy hrf1]
    rw [foldl_visit_of_devtools_true zs
      ⟨(xs.foldl visitNode ⟨false, false, []⟩).root_found, true,
        (xs.foldl visitNode ⟨false, false, []⟩).new_children⟩ rfl]
  · rw [hsplit]
    simp
    omega

/-- Witness for C1: on the concrete wrapper tree `exDevTree`, the split
hypotheses hold and the registry equals the one built from the prefix
before the devtools root. -/
theorem snapshot_self_exclusion_w :
    exDevTree.preorder 0 = exPrefixVisits ++ (exDevRootData, 2) :: exSuffixVisits ∧
    (exPrefixVisits.filter (fun p => p.2 = 2)).length = 1 ∧
    (buildSnapshot exDevTree = visitsRegistry exPrefixVisits ∧
      (exDevTree.preorder 0).length =
        exPrefixVisits.length + 1 + exSuffixVisits.length) :=
  ⟨by decide, by decide,
    snapshot_self_exclusion exDevTree exPrefixVisits exSuffixVisits
      (exDevRootData, 2) (by decide) rfl (by decide)⟩

/-- C5: record filtering and shape.  For a node visited while
`devtools_found` is still false after the flag update, a record is
appended iff the node carries an `element_id`; a text node yields tag
`"text"`, its literal text and no listeners; an element node yields its
tag and listener set and no text; a placeholder yields tag
`"placeholder"`, no text and no listeners; the record's height is the
traversal height at visit time. -/
theorem record_filtering_and_shape (st : BuildState) (node : NodeData) (height : Nat)
    (hincl : (updateFlags st height).devtools_found = false) :
    (visitNode st (node, height)).new_children =
      match node.element_id with
      | none => st.new_children
      | some eid =>
          st.new_children ++
            [{ tag :=
                 match node.node_type with
                 | NodeType.text _ => "text"
                 | NodeType.element tag _ => tag
                 | NodeType.placeholder => "placeholder",
               id := node.node_id, element_id := eid, height := height,
               text :=
                 match node.node_type with
                 | NodeType.text s => some s
                 | NodeType.element _ _ => none
                 | NodeType.placeholder => none,
               state := node.state,
               listeners :=
                 match node.node_type with
                 | NodeType.text _ => none
                 | NodeType.element _ ls => some ls
                 | NodeType.placeholder => none }] := by
  unfold visitNode
  dsimp only
  rw [hincl]
  simp only [if_pos rfl]
  cases hid : node.element_id with
  | none => simp [updateFlags_new_children]
  | some eid =>
      cases hnt : node.node_type <;>
        simp [nodeParts, hnt, updateFlags_new_children]

/-- Witness for C5: visiting the concrete text node `exAppLeafData` at
height 1 from fresh flags appends exactly its record. -/
theorem record_filtering_and_shape_w :
    (updateFlags ⟨false, false, []⟩ 1).devtools_found = false ∧
    (visitNode ⟨false, false, []⟩ (exAppLeafData, 1)).new_children =
      [{ tag := "text", id := 3, element_id := 3, height := 1,
         text := some "Hello", state := 0, listeners := none }] := by
  refine ⟨by decide, ?_⟩
  have h := record_filtering_and_shape ⟨false, false, []⟩ exAppLeafData 1 (by decide)
  simpa [exAppLeafData] using h

/-- C8: NodeId uniqueness.  If the traversed tree's nodes carry pairwise
distinct NodeIds (its pre-order id sequence has no duplicate), then the
freshly built registry's id values are pairwise distinct. -/
theorem nodeid_uniqueness (t : RDTree)
    (hids : ((t.preorder 0).map (fun p => p.1.node_id)).Nodup) :
    ((buildSnapshot t).map (fun r => r.id)).Nodup := by
  have h := foldl_visit_ids_sublist (t.preorder 0) ⟨false, false, []⟩
  simp at h
  exact List.Nodup.sublist h hids

/-- Witness for C8 on the concrete tree `exDevTree`, whose six node ids
are distinct. -/
theorem nodeid_uniqueness_w :
    ((exDevTree.preorder 0).map (fun p => p.1.node_id)).Nodup ∧
    ((buildSnapshot exDevTree).map (fun r => r.id)).Nodup :=
  ⟨by decide, nodeid_uniqueness exDevTree (by decide)⟩

/-- C2 counterexample: two signals arrive at t=0 and t=3, both inside
the first 10 ms debounce window, yet the loop performs two rebuilds
(at t=10 and t=20), not exactly one. -/
theorem debounce_coalescing_cex :
    mutationLoopRebuildTimes [0, 3] 0 = [10, 20] ∧
    (mutationLoopRebuildTimes [0, 3] 0).length ≠ 1 := by
  decide

/-- C2 (amended): the loop performs exactly one rebuild per received
signal, 10 ms after dequeuing it; signals arriving during a debounce
sleep are queued and each later produces its own rebuild, so the number
of rebuilds equals the number of signals. -/
theorem rebuild_count_equals_signal_count (arrivals : List Nat) (start : Nat) :
    (mutationLoopRebuildTimes arrivals start).length = arrivals.length := by
  induction arrivals generalizing start with
  | nil => rfl
  | cons a rest ih => simp [mutationLoopRebuildTimes, ih]

/-- C3: on a closed channel the loop body never breaks and performs no
rebuild, so after any number of iterations the loop is still running —
the code spins instead of terminating cleanly. -/
theorem closed_channel_loop_never_breaks (n : Nat) :
    runClosedLoop n = LoopControl.continues ∧
    mutationLoopBody none = (LoopControl.continues, false) := by
  constructor
  · induction n with
    | zero => rfl
    | succ k ih => simpa [runClosedLoop, mutationLoopBody] using ih
  · rfl

/-- C4 counterexample: with a poisoned tree lock, the rebuild cycle
panics (`.unwrap()` on the lock result) instead of leaving the previous
registry in place. -/
theorem lock_failure_degradation_cex :
    rebuildCycle (LockResult.poisoned exDevTree) [exClickNode] =
      PanicOr.panicked "PoisonError" ∧
    rebuildCycle (LockResult.poisoned exDevTree) [exClickNode] ≠
      PanicOr.ok [exClickNode] := by
  constructor
  · rfl
  · intro h
    cases h

/-- C4 (amended): whenever the shared tree lock is poisoned at rebuild
time the cycle panics — the failure escalates instead of being
abandoned-and-retried; when the lock is acquired the cycle rebuilds the
snapshot. -/
theorem lock_poisoned_panics (t : RDTree) (prev : List TreeNode) :
    rebuildCycle (LockResult.poisoned t) prev = PanicOr.panicked "PoisonError" ∧
    rebuildCycle (LockResult.ok t) prev = PanicOr.ok (buildSnapshot t) :=
  ⟨rfl, rfl⟩

/-- C6: triggering injection appends exactly one record to the outbound
channel, whose name is the listener, whose target is the record's
`element_id`, and whose payload is a mouse payload with the user-edited
local point and button `Some(Left)`; in particular injecting `"click"`
at `(5, 5)` against the `ElementId`-1 click record emits exactly that
record. -/
theorem injection_postcondition :
    (∀ (channel : List DomEvent) (listener : String) (node : TreeNode) (x y : Rat),
      triggerInjection channel listener node (x, y) =
        channel ++
          [{ name := listener, element_id := node.element_id,
             data := DomEventData.Mouse
               { screen_point := (0, 0), local_point := (x, y),
                 button := some MouseButton.left } }]) ∧
    triggerInjection [] "click" exClickNode (5, 5) =
      [{ name := "click", element_id := 1,
         data := DomEventData.Mouse
           { screen_point := (0, 0), local_point := (5, 5),
             button := some MouseButton.left } }] := by
  constructor
  · intro channel listener node x y
    rfl
  · rfl

/-- C7: a rebuild (`children.set`) never clears the selection; an absent
selected id resolves to `none` without error; a later rebuild whose
registry contains a record with the selected id makes resolution return
that record. -/
theorem selection_persistence_and_resolution
    (st : DevToolsState) (reg reg' : List TreeNode) (n : Nat) (r : TreeNode)
    (hsel : st.selected_node_id = some n)
    (habsent : ∀ c ∈ reg, c.id ≠ n)
    (hr : r ∈ reg') (hid : r.id = n)
    (hnodup : (reg'.map (fun c => c.id)).Nodup) :
    (setChildren st reg).selected_node_id = some n ∧
    selectedNode (setChildren st reg) = none ∧
    selectedNode (setChildren (setChildren st reg) reg') = some r := by
  refine ⟨hsel, ?_, ?_⟩
  · unfold selectedNode setChildren
    dsimp only
    rw [hsel]
    rw [List.find?_eq_none]
    intro c hc
    simp only [Nat.beq_eq_true_eq]
    intro h
    exact habsent c hc h.symm
  · unfold selectedNode setChildren
    dsimp only
    rw [hsel]
    have hsome : (reg'.find? (fun c => n == c.id)).isSome := by
      rw [List.find?_isSome]
      exact ⟨r, hr, by simp [hid]⟩
    obtain ⟨r', hr'⟩ := Option.isSome_iff_exists.mp hsome
    have hpr' := List.find?_some hr'
    have hmem' : r' ∈ reg' := List.mem_of_find?_eq_some hr'
    have hrr : r' = r := by
      apply List.inj_on_of_nodup_map hnodup hmem' hr
      have h1 : r'.id = n := by
        have h2 : (n == r'.id) = true := by simpa using hpr'
        exact ((Nat.beq_eq_true_eq n r'.id).mp h2).symm
      rw [h1, hid]
    rw [← hrr]
    exact hr'

/-- Witness for C7: selecting id 9 while the registry holds only a
record with id 8 resolves to nothing; after a rebuild introducing the
id-9 record, resolution returns it. -/
theorem selection_persistence_and_resolution_w :
    ((⟨[], some 9⟩ : DevToolsState).selected_node_id = some 9 ∧
      (∀ c ∈ [exOtherNode], c.id ≠ 9) ∧
      exLaterNode ∈ [exOtherNode, exLaterNode] ∧
      exLaterNode.id = 9 ∧
      (([exOtherNode, exLaterNode].map (fun c => c.id)).Nodup)) ∧
    ((setChildren ⟨[], some 9⟩ [exOtherNode]).selected_node_id = some 9 ∧
      selectedNode (setChildren ⟨[], some 9⟩ [exOtherNode]) = none ∧
      selectedNode (setChildren (setChildren ⟨[], some 9⟩ [exOtherNode])
        [exOtherNode, exLaterNode]) = some exLaterNode) :=
  ⟨⟨rfl, by decide, by decide, rfl, by decide⟩,
    selection_persistence_and_resolution ⟨[], some 9⟩ [exOtherNode]
      [exOtherNode, exLaterNode] 9 exLaterNode rfl (by decide) (by decide) rfl
      (by decide)⟩

/-- C9: a coordinate input keeps its previous valid value when the text
fails to parse, and takes the parsed value when it parses; the other
coordinate is untouched either way. -/
theorem malformed_coordinate_fallback (parseNum : String → Option Rat)
    (positions : Rat × Rat) (v : String) :
    (parseNum v = none →
      coordOnChangeX parseNum positions v = positions ∧
      coordOnChangeY parseNum positions v = positions) ∧
    ∀ x : Rat, parseNum v = some x →
      coordOnChangeX parseNum positions v = (x, positions.2) ∧
      coordOnChangeY parseNum positions v = (positions.1, x) := by
  constructor
  · intro h
    unfold coordOnChangeX coordOnChangeY
    rw [h]
    simp
  · intro x h
    unfold coordOnChangeX coordOnChangeY
    rw [h]
    simp

/-- Witness for C9 with a concrete parser: `"abc"` fails to parse and
the stored pair is unchanged; `"5"` parses and only that coordinate is
updated. -/
theorem malformed_coordinate_fallback_w :
    (parseFive "abc" = none ∧ coordOnChangeX parseFive (1, 2) "abc" = (1, 2)) ∧
    (parseFive "5" = some 5 ∧ coordOnChangeY parseFive (1, 2) "5" = (1, 5)) :=
  ⟨⟨by decide, ((malformed_coordinate_fallback parseFive (1, 2) "abc").1 (by decide)).1⟩,
   ⟨by decide, ((malformed_coordinate_fallback parseFive (1, 2) "5").2 5 (by decide)).2⟩⟩

/-- C10: every event the panel can emit has the listener's name as its
event name, which is necessarily `"mousedown"` or `"click"` (no other
listener row offers the trigger); its target is the record's
`element_id`; its payload carries a fixed screen point `(0, 0)`, the
`positions` state as local point, and a fixed button `Some(Left)`; and
the `positions` state starts at `(0, 0)`. -/
theorem panel_event_shape (listener : String) (node : TreeNode)
    (positions : Rat × Rat) (e : DomEvent)
    (he : e ∈ panelEmittableEvents listener node positions) :
    e.name = listener ∧ (listener = "mousedown" ∨ listener = "click") ∧
    e.element_id = node.element_id ∧
    e.data = DomEventData.Mouse
      { screen_point := (0, 0), local_point := (positions.1, positions.2),
        button := some MouseButton.left } ∧
    initialPositions = (0, 0) := by
  by_cases hc : listener = "mousedown" ∨ listener = "click"
  · have he' : e = clickTriggerEvent listener node positions := by
      simp [panelEmittableEvents, eventListenerRow, hc] at he
      exact he
    subst he'
    exact ⟨rfl, hc, rfl, rfl, rfl⟩
  · simp [panelEmittableEvents, eventListenerRow, hc] at he

/-- Witness for C10: the `"click"` row's trigger event at the initial
positions satisfies every conjunct. -/
theorem panel_event_shape_w :
    clickTriggerEvent "click" exClickNode (0, 0) ∈
      panelEmittableEvents "click" exClickNode (0, 0) ∧
    ((clickTriggerEvent "click" exClickNode (0, 0)).name = "click" ∧
      ("click" = "mousedown" ∨ "click" = "click") ∧
      (clickTriggerEvent "click" exClickNode (0, 0)).element_id =
        exClickNode.element_id ∧
      (clickTriggerEvent "click" exClickNode (0, 0)).data = DomEventData.Mouse
        { screen_point := (0, 0), local_point := (0, 0),
          button := some MouseButton.left } ∧
      initialPositions = (0, 0)) :=
  ⟨by simp [panelEmittableEvents, eventListenerRow],
    panel_event_shape "click" exClickNode (0, 0) _
      (by simp [panelEmittableEvents, eventListenerRow])⟩

end Devtools
